import Mathlib

/-!
Verification of the LAN host-discovery and monitoring subsystem of
`hacker.py` (functions `network_scanner`, `get_arp_cache_hosts`,
`deep_scan_devices`, `monitor_network`, `wake_on_lan_menu`,
`get_vendor_from_mac`, `is_private_mac`, `ping_host`, `arping_host`,
`scan_host_socket`, `scan_ip`).

The Python code is shallowly embedded: external effects (subprocess
output, socket connect results, neighbor-table text) are passed in as
explicit environment values, `try/except` blocks become `Except`
values whose error case is absorbed exactly where the code absorbs it,
Python sets become deduplicated lists or `Finset`s (only membership is
ever used by the code), and Python dicts keyed by insertion order
become association lists in declaration order.
-/

namespace NexRecon

/-! ### Generic string helpers mirroring Python primitives -/

/-- Python `str.lower()` restricted to the ASCII case used by the source. -/
def lowerStr (s : String) : String := (s.toList.map Char.toLower).asString

/-- Python `str.upper()` restricted to the ASCII case used by the source. -/
def upperStr (s : String) : String := (s.toList.map Char.toUpper).asString

/-- Helper for `splitOnChar`, accumulating the current field (reversed). -/
def splitOnCharAux (sep : Char) : List Char → List Char → List String
  | [], acc => [(acc.reverse).asString]
  | c :: cs, acc =>
    if c == sep then (acc.reverse).asString :: splitOnCharAux sep cs []
    else splitOnCharAux sep cs (c :: acc)

/-- Python `str.split(sep)` for a one-character separator (the source
only ever splits on `'\n'` and `'.'`). -/
def splitOnChar (sep : Char) (s : String) : List String := splitOnCharAux sep s.toList []

/-- Python `stdout.split('\n')`. -/
def splitLines (s : String) : List String := splitOnChar (Char.ofNat 10) s

/-- Membership of one character list inside another, as Python's `in`
operator on strings (decidable, computable). -/
def isPrefixOfL : List Char → List Char → Bool
  | [], _ => true
  | _ :: _, [] => false
  | a :: as, b :: bs => a == b && isPrefixOfL as bs

/-- Python `s.startswith(p)`. -/
def strStartsWith (s p : String) : Bool := isPrefixOfL p.toList s.toList

/-- Python `needle in hay` for strings, over character lists. -/
def isInfixOfL (n : List Char) : List Char → Bool
  | [] => n.isEmpty
  | c :: cs => isPrefixOfL n (c :: cs) || isInfixOfL n cs

/-- Python `needle in hay` for strings. -/
def strContains (hay needle : String) : Bool :=
  isInfixOfL needle.toList hay.toList

/-- Helper for `pyWords`: accumulates the current word (reversed). -/
def pyWordsAux : List Char → List Char → List String
  | [], [] => []
  | [], acc => [(acc.reverse).asString]
  | c :: cs, acc =>
    if c.isWhitespace then
      match acc with
      | [] => pyWordsAux cs []
      | _ => (acc.reverse).asString :: pyWordsAux cs []
    else pyWordsAux cs (c :: acc)

/-- Python `str.split()` with no argument: split on runs of whitespace,
discarding empty fields. -/
def pyWords (s : String) : List String := pyWordsAux s.toList []

/-! ### `get_vendor_from_mac` / `is_private_mac` (source lines 3098-3314)

The static MAC vendor prefix table, in the source's declaration order.
The Python dict literal contains the key `"52:54:00"` twice
(`QEMU/KVM`, then `Realtek`); in Python the later value wins, which
`dictGet` reproduces by searching from the end. -/

def vendors : List (String × String) := [
    ("00:50:56", "VMware"),
    ("00:0C:29", "VMware"),
    ("00:1C:42", "Parallels"),
    ("08:00:27", "VirtualBox"),
    ("52:54:00", "QEMU/KVM"),
    ("B8:27:EB", "Raspberry Pi"),
    ("DC:A6:32", "Raspberry Pi"),
    ("E4:5F:01", "Raspberry Pi"),
    ("00:1A:11", "Google"),
    ("94:EB:2C", "Google"),
    ("3C:5A:B4", "Google"),
    ("F4:F5:D8", "Google"),
    ("00:17:88", "Philips Hue"),
    ("00:1E:C2", "Apple"),
    ("00:03:93", "Apple"),
    ("00:0A:95", "Apple"),
    ("00:1D:4F", "Apple"),
    ("A4:83:E7", "Apple"),
    ("AC:BC:32", "Apple"),
    ("3C:06:30", "Apple"),
    ("78:31:C1", "Apple"),
    ("F0:18:98", "Apple"),
    ("00:26:BB", "Apple"),
    ("40:6C:8F", "Apple"),
    ("D0:E1:40", "Apple"),
    ("00:26:B0", "Apple"),
    ("00:23:12", "Apple"),
    ("18:AF:8F", "Apple"),
    ("00:24:36", "Apple"),
    ("A8:20:66", "Apple"),
    ("00:1F:F3", "Apple"),
    ("00:21:E9", "Apple"),
    ("B8:C7:5D", "Apple"),
    ("00:25:00", "Apple"),
    ("58:B0:35", "Apple"),
    ("60:C5:47", "Apple"),
    ("88:66:A5", "Apple"),
    ("28:CF:DA", "Apple"),
    ("00:50:F2", "Microsoft"),
    ("00:03:FF", "Microsoft"),
    ("00:0D:3A", "Microsoft"),
    ("00:12:5A", "Microsoft"),
    ("00:15:5D", "Microsoft"),
    ("00:17:FA", "Microsoft"),
    ("00:1D:D8", "Microsoft"),
    ("28:18:78", "Microsoft"),
    ("00:22:48", "Microsoft"),
    ("00:25:AE", "Microsoft"),
    ("60:45:BD", "Microsoft"),
    ("7C:1E:52", "Microsoft"),
    ("B4:0E:DE", "Samsung"),
    ("00:26:37", "Samsung"),
    ("5C:0A:5B", "Samsung"),
    ("84:11:9E", "Samsung"),
    ("94:35:0A", "Samsung"),
    ("AC:5F:3E", "Samsung"),
    ("C4:73:1E", "Samsung"),
    ("F0:25:B7", "Samsung"),
    ("00:E0:4C", "Realtek"),
    ("00:60:52", "Realtek"),
    ("52:54:00", "Realtek"),
    ("00:1B:21", "Intel"),
    ("00:1C:C0", "Intel"),
    ("00:1D:E0", "Intel"),
    ("00:1E:64", "Intel"),
    ("00:1E:67", "Intel"),
    ("00:1F:3B", "Intel"),
    ("00:1F:3C", "Intel"),
    ("00:21:5C", "Intel"),
    ("00:21:6A", "Intel"),
    ("00:22:FA", "Intel"),
    ("00:24:D6", "Intel"),
    ("00:24:D7", "Intel"),
    ("00:26:C6", "Intel"),
    ("00:26:C7", "Intel"),
    ("3C:97:0E", "Intel"),
    ("4C:79:6E", "Intel"),
    ("84:3A:4B", "Intel"),
    ("A4:4C:C8", "Intel"),
    ("E8:B1:FC", "Intel"),
    ("F8:16:54", "Intel"),
    ("00:0E:C6", "ASUS"),
    ("00:11:2F", "ASUS"),
    ("00:15:F2", "ASUS"),
    ("00:17:31", "ASUS"),
    ("00:1A:92", "ASUS"),
    ("00:1D:60", "ASUS"),
    ("00:1E:8C", "ASUS"),
    ("00:22:15", "ASUS"),
    ("00:23:54", "ASUS"),
    ("00:24:8C", "ASUS"),
    ("00:26:18", "ASUS"),
    ("14:DA:E9", "ASUS"),
    ("1C:B7:2C", "ASUS"),
    ("2C:56:DC", "ASUS"),
    ("30:85:A9", "ASUS"),
    ("54:04:A6", "ASUS"),
    ("60:45:CB", "ASUS"),
    ("AC:22:0B", "ASUS"),
    ("BC:EE:7B", "ASUS"),
    ("D8:50:E6", "ASUS"),
    ("F4:6D:04", "ASUS"),
    ("00:09:0F", "Fortinet"),
    ("00:1B:77", "Intel"),
    ("B0:BE:76", "TP-Link"),
    ("50:C7:BF", "TP-Link"),
    ("60:E3:27", "TP-Link"),
    ("94:D9:B3", "TP-Link"),
    ("C0:25:E9", "TP-Link"),
    ("E8:DE:27", "TP-Link"),
    ("F8:1A:67", "TP-Link"),
    ("14:CC:20", "TP-Link"),
    ("30:B5:C2", "TP-Link"),
    ("54:C8:0F", "TP-Link"),
    ("64:66:B3", "TP-Link"),
    ("00:18:E7", "D-Link"),
    ("00:1B:11", "D-Link"),
    ("00:1C:F0", "D-Link"),
    ("00:1E:58", "D-Link"),
    ("00:21:91", "D-Link"),
    ("00:22:B0", "D-Link"),
    ("00:24:01", "D-Link"),
    ("00:26:5A", "D-Link"),
    ("1C:7E:E5", "D-Link"),
    ("28:10:7B", "D-Link"),
    ("34:08:04", "D-Link"),
    ("1C:AF:F7", "D-Link"),
    ("78:54:2E", "D-Link"),
    ("9C:D6:43", "D-Link"),
    ("AC:F1:DF", "D-Link"),
    ("C8:BE:19", "D-Link"),
    ("F0:7D:68", "D-Link"),
    ("00:14:BF", "Linksys"),
    ("00:18:39", "Linksys"),
    ("00:1A:70", "Linksys"),
    ("00:1C:10", "Linksys"),
    ("00:1D:7E", "Linksys"),
    ("00:1E:E5", "Linksys"),
    ("00:21:29", "Linksys"),
    ("00:22:6B", "Linksys"),
    ("00:23:69", "Linksys"),
    ("00:25:9C", "Linksys"),
    ("58:6D:8F", "Linksys"),
    ("68:7F:74", "Linksys"),
    ("C0:C1:C0", "Linksys"),
    ("20:AA:4B", "Linksys"),
    ("E8:9F:80", "Linksys"),
    ("00:1D:0F", "TP-Link"),
    ("00:27:19", "TP-Link"),
    ("10:FE:ED", "TP-Link"),
    ("18:A6:F7", "TP-Link"),
    ("20:DC:E6", "TP-Link"),
    ("24:69:68", "TP-Link"),
    ("00:01:E6", "Hewlett-Packard"),
    ("00:02:A5", "Hewlett-Packard"),
    ("00:04:EA", "Hewlett-Packard"),
    ("00:08:02", "Hewlett-Packard"),
    ("00:0B:CD", "Hewlett-Packard"),
    ("00:0D:9D", "Hewlett-Packard"),
    ("00:0E:7F", "Hewlett-Packard"),
    ("00:0F:20", "Hewlett-Packard"),
    ("00:0F:61", "Hewlett-Packard"),
    ("00:10:83", "Hewlett-Packard"),
    ("00:11:0A", "Hewlett-Packard"),
    ("00:11:85", "Hewlett-Packard"),
    ("00:12:79", "Hewlett-Packard"),
    ("00:13:21", "Hewlett-Packard"),
    ("00:14:38", "Hewlett-Packard"),
    ("00:14:C2", "Hewlett-Packard"),
    ("00:15:60", "Hewlett-Packard"),
    ("00:16:35", "Hewlett-Packard"),
    ("00:17:08", "Hewlett-Packard"),
    ("00:17:A4", "Hewlett-Packard"),
    ("00:18:71", "Hewlett-Packard"),
    ("00:18:FE", "Hewlett-Packard"),
    ("00:19:BB", "Hewlett-Packard"),
    ("00:1A:4B", "Hewlett-Packard"),
    ("00:1B:78", "Hewlett-Packard"),
    ("00:1C:2E", "Hewlett-Packard"),
    ("00:1E:0B", "Hewlett-Packard"),
    ("00:1F:29", "Hewlett-Packard"),
    ("00:21:5A", "Hewlett-Packard"),
    ("00:22:64", "Hewlett-Packard"),
    ("00:23:7D", "Hewlett-Packard"),
    ("00:24:81", "Hewlett-Packard"),
    ("00:25:B3", "Hewlett-Packard"),
    ("00:26:55", "Hewlett-Packard"),
    ("00:30:6E", "Hewlett-Packard"),
    ("00:60:B0", "Hewlett-Packard"),
    ("00:80:A0", "Hewlett-Packard"),
    ("08:00:09", "Hewlett-Packard")]

/-- Lookup in a Python dict built from an association-list literal:
later bindings for the same key overwrite earlier ones, so search the
reversed list. -/
def dictGet (l : List (String × String)) (k : String) : Option String :=
  (l.reverse.find? (fun p => p.1 == k)).map Prod.snd

/-- The locally-administered-address test on the second character of a
MAC string, shared verbatim by `get_vendor_from_mac` and
`is_private_mac` in the source. -/
def privateSecondChar (c : Char) : Bool :=
  c.toUpper == '2' || c.toUpper == '6' || c.toUpper == 'A' || c.toUpper == 'E'

/-- Python `mac[1]` guarded by `len(mac) >= 2`: the second character
of the string, when it exists. -/
def secondCharOf (mac : String) : Option Char :=
  match mac.toList with
  | _ :: c :: _ => some c
  | _ => none

/-- `get_vendor_from_mac(mac)` (source lines 3098-3307): `"Unknown"`
passes through; a locally-administered second hex digit short-circuits
to `"Private MAC"` before the prefix table is consulted; otherwise the
uppercased 8-character prefix is looked up with default
`"Unknown Vendor"`. -/
def get_vendor_from_mac (mac : String) : String :=
  if mac = "Unknown" then "Unknown"
  else
    let macPrefix := upperStr ((mac.toList.take 8).asString)
    match secondCharOf mac with
    | some c =>
      if privateSecondChar c then "Private MAC"
      else (dictGet vendors macPrefix).getD "Unknown Vendor"
    | none => (dictGet vendors macPrefix).getD "Unknown Vendor"

/-- `is_private_mac(mac)` (source lines 3309-3314). -/
def is_private_mac (mac : String) : Bool :=
  if mac = "Unknown" || mac.length < 2 then false
  else
    match secondCharOf mac with
    | some c => privateSecondChar c
    | none => false

/-! ### `monitor_network` diffing step (source lines 3955-4022)

One cycle of the monitor loop after `active_network_scan` has produced
the set `current` of alive addresses. The code computes
`new_ips = current_ips - known_ips` (each reported once as "joined"
and inserted into `known_devices`) and
`gone_ips = known_ips - current_ips - {local_ip}` (each reported once
as "left" and deleted), where `known_ips` is captured before either
loop runs. Only the key set of the `known_devices` dict is relevant to
the diffing, so the state is modelled as a `Finset` of addresses. -/

/-- One monitor cycle: returns `(joined, left, newKnown)`. -/
def monitorStep (localIp : String) (known current : Finset String) :
    Finset String × Finset String × Finset String :=
  let joined := current \ known
  let gone := (known \ current) \ {localIp}
  (joined, gone, (known ∪ joined) \ gone)

/-! ### `deep_scan_devices` fingerprint classification (source lines 3710-3812) -/

/-- The static `device_signatures` table, in declaration order. -/
def device_signatures : List (String × List Nat) := [
    ("Router/Gateway", [80, 443, 53, 8080, 8443]),
    ("Printer", [9100, 515, 631, 80]),
    ("NAS/File Server", [445, 139, 548, 2049, 5000]),
    ("Smart TV", [8008, 8443, 9080, 1925]),
    ("Game Console", [3074, 3478, 3479, 3480]),
    ("IP Camera", [554, 8554, 80, 8080]),
    ("Web Server", [80, 443, 8080, 8443]),
    ("SSH Server", [22]),
    ("FTP Server", [21]),
    ("Database", [3306, 5432, 27017, 6379]),
    ("Mail Server", [25, 587, 993, 995]),
    ("IoT Device", [1883, 8883, 5683])]

/-- `score = sum(1 for p in signature_ports if p in open_ports)`. -/
def sigScore (openPorts : List Nat) (signaturePorts : List Nat) : Nat :=
  signaturePorts.countP (fun p => decide (p ∈ openPorts))

/-- The `type_scores` dict: signatures with a positive score, paired with
their score, in declaration order (Python dict insertion order). -/
def positiveScores (sigs : List (String × List Nat)) (openPorts : List Nat) :
    List (String × Nat) :=
  sigs.filterMap (fun s =>
    if 0 < sigScore openPorts s.2 then some (s.1, sigScore openPorts s.2) else none)

/-- Python `max(iterable, key=...)` over a nonempty sequence given as
head and tail: keeps the current best and replaces it only on a
strictly larger key, so the first maximal element wins. -/
def pyMax : String × Nat → List (String × Nat) → String × Nat
  | best, [] => best
  | best, x :: xs => pyMax (if best.2 < x.2 then x else best) xs

/-- The device-type decision of `deep_scan_devices`, parametrized by the
signature table: `max(type_scores, key=type_scores.get)` when some score
is positive, the private-MAC/stealth fallback only when `open_ports` is
empty, and the initial value `"Unknown Device"` otherwise. -/
def classifyOver (sigs : List (String × List Nat)) (openPorts : List Nat)
    (privateMac : Bool) : String :=
  match positiveScores sigs openPorts with
  | x :: xs => (pyMax x xs).1
  | [] =>
    if openPorts.isEmpty then
      if privateMac then "📱 Mobile Device" else "Stealth/Firewall"
    else "Unknown Device"

/-- Device-type classification against the static signature table. -/
def classifyDevice (openPorts : List Nat) (privateMac : Bool) : String :=
  classifyOver device_signatures openPorts privateMac

/-- Highest score over a signature table, with 0 for an empty or
all-zero table (matching the empty `type_scores` dict). -/
def maxScoreOver (sigs : List (String × List Nat)) (openPorts : List Nat) : Nat :=
  (sigs.map (fun s => sigScore openPorts s.2)).foldr max 0

/-- The highest signature score for a given open-port list (0 when no
signature matches anything). -/
def maxSigScore (openPorts : List Nat) : Nat :=
  maxScoreOver device_signatures openPorts

/-- Ordered insertion into a sorted list of port numbers. -/
def insertNat (x : Nat) : List Nat → List Nat
  | [] => [x]
  | y :: ys => if x ≤ y then x :: y :: ys else y :: insertNat x ys

/-- Python `sorted` on a list of distinct port numbers. -/
def sortNats : List Nat → List Nat
  | [] => []
  | x :: xs => insertNat x (sortNats xs)

/-- `ports_to_scan`: the deduplicated, sorted union of all signature
ports plus the diagnostic ports 3389, 5900 and 23 (source lines
3743-3745). -/
def ports_to_scan : List Nat :=
  sortNats (((device_signatures.map Prod.snd).flatten ++ [3389, 5900, 23]).dedup)

/-! ### `get_arp_cache_hosts` (source lines 3359-3407)

The three neighbor-table sources (`arp -a`, `arp -n`,
`/proc/net/arp`), each wrapped in its own `try/except` whose failure
contributes nothing. External command output is passed in through
`ArpEnv`; `.error` models a raised exception (command missing,
timeout), `.ok` carries `(returncode, stdout)`. -/

/-- Greedily consume leading ASCII digits, as the regex atom for digits. -/
def takeDigits : List Char → List Char × List Char
  | [] => ([], [])
  | c :: cs =>
    if c.isDigit then
      let (ds, r) := takeDigits cs
      (c :: ds, r)
    else ([], c :: cs)

/-- Parse one nonempty digit run. -/
def parseOctet (cs : List Char) : Option (List Char × List Char) :=
  match takeDigits cs with
  | ([], _) => none
  | (ds, r) => some (ds, r)

/-- Parse a dotted quad `d+.d+.d+.d+` at the current position,
returning the matched text and the remainder. -/
def parseQuad (cs : List Char) : Option (String × List Char) := do
  let (d1, r1) ← parseOctet cs
  match r1 with
  | '.' :: r1a =>
    let (d2, r2) ← parseOctet r1a
    match r2 with
    | '.' :: r2a =>
      let (d3, r3) ← parseOctet r2a
      match r3 with
      | '.' :: r3a =>
        let (d4, r4) ← parseOctet r3a
        some ((d1 ++ '.' :: d2 ++ '.' :: d3 ++ '.' :: d4).asString, r4)
      | _ => none
    | _ => none
  | _ => none

/-- The search for the first occurrence of a parenthesized dotted quad
in a line, as the regex search over `\((\d+\.\d+\.\d+\.\d+)\)` used on
`arp -a` output. -/
def findParenIp : List Char → Option String
  | [] => none
  | '(' :: cs =>
    (match parseQuad cs with
     | some (ip, ')' :: _) => some ip
     | _ => findParenIp cs)
  | _ :: cs => findParenIp cs

/-- A nonempty all-digit field. -/
def allDigits (s : String) : Bool := !s.isEmpty && s.toList.all Char.isDigit

/-- The full-line regex `^\d+\.\d+\.\d+\.\d+$` used on `arp -n` output. -/
def isDottedQuad (s : String) : Bool :=
  match splitOnChar (Char.ofNat 46) s with
  | [a, b, c, d] => allDigits a && allDigits b && allDigits c && allDigits d
  | _ => false

/-- One line of `arp -a` output: extract the parenthesized address,
keep it only if it starts with the segment prefix and the line is not
marked incomplete. -/
def arpALineHost (nr line : String) : Option String :=
  match findParenIp line.toList with
  | some ip =>
    if strStartsWith ip (nr ++ ".")
        && !(strContains (lowerStr line) "incomplete")
        && !(strContains (lowerStr line) "<incomplete>") then some ip
    else none
  | none => none

/-- One line of `arp -n` output: first whitespace field of a line with
at least three fields (the three-field pattern is `len(parts) >= 3`),
kept when it is a dotted quad inside the segment and not marked
incomplete. -/
def arpNLineHost (nr line : String) : Option String :=
  match pyWords line with
  | ip :: _ :: _ :: _ =>
    if isDottedQuad ip && strStartsWith ip (nr ++ ".")
        && !(strContains (lowerStr line) "incomplete") then some ip
    else none
  | _ => none

/-- One line of `/proc/net/arp`: at least four fields, the header row
(`IP ...`) skipped, kept when inside the segment with flags other than
`0x0` (an incomplete kernel entry). -/
def procLineHost (nr line : String) : Option String :=
  match pyWords line with
  | ip :: _ :: flags :: _ :: _ =>
    if ip != "IP" && strStartsWith ip (nr ++ ".") && flags != "0x0" then some ip
    else none
  | _ => none

/-- Outcomes of the three neighbor-table reads. `.error` is a raised
exception; for `/proc/net/arp`, `.ok none` means the file does not
exist. -/
structure ArpEnv where
  arpA : Except Unit (Int × String)
  arpN : Except Unit (Int × String)
  procNetArp : Except Unit (Option String)

/-- The `arp -a` block of `get_arp_cache_hosts`: contributes nothing
when the subprocess raised or exited non-zero. -/
def arpAHosts (nr : String) (e : Except Unit (Int × String)) : List String :=
  match e with
  | .ok (rc, out) =>
    if rc = 0 then (splitLines out).filterMap (arpALineHost nr) else []
  | .error _ => []

/-- The `arp -n` block of `get_arp_cache_hosts`. -/
def arpNHosts (nr : String) (e : Except Unit (Int × String)) : List String :=
  match e with
  | .ok (rc, out) =>
    if rc = 0 then (splitLines out).filterMap (arpNLineHost nr) else []
  | .error _ => []

/-- The `/proc/net/arp` block of `get_arp_cache_hosts`: contributes
nothing when the file does not exist or reading it raised. -/
def procHosts (nr : String) (e : Except Unit (Option String)) : List String :=
  match e with
  | .ok (some content) => (splitLines content).filterMap (procLineHost nr)
  | .ok none => []
  | .error _ => []

/-- `get_arp_cache_hosts()` (source lines 3359-3407). The Python
function accumulates into a `set` across the three `try` blocks; only
membership of the result is ever used, so the set is modelled as a
deduplicated list. -/
def get_arp_cache_hosts (nr : String) (env : ArpEnv) : List String :=
  (arpAHosts nr env.arpA ++ arpNHosts nr env.arpN ++ procHosts nr env.procNetArp).dedup

/-! ### `network_scanner` discovery assembly (source lines 3444-3518, 3618-3630) -/

/-- The per-address probe (`scan_ip`, lines 3482-3494) runs over host
octets 1..254 of the segment. -/
def rangeIps (nr : String) : List String :=
  (List.range' 1 254).map (fun i => nr ++ "." ++ toString i)

/-- The union of the discovery phases: ARP cache preseed, nmap bulk
scan, concurrent per-address probing of not-yet-discovered addresses,
and the final ARP cache re-read. All phases are unioned into the
`discovered_hosts` set; `alive ip` abstracts "some probe of
`scan_ip(ip)` returned a positive". -/
def network_scanner_hosts (nr : String) (arpHosts nmapHosts : List String)
    (alive : String → Bool) (finalArpHosts : List String) : List String :=
  let pre := (arpHosts ++ nmapHosts).dedup
  let probed := (rangeIps nr).filter (fun ip => !pre.contains ip && alive ip)
  ((pre ++ probed).dedup ++ finalArpHosts).dedup

/-- The per-device record stored in `scan_results` (a Python dict; the
two fields added later by `deep_scan_devices` start out absent,
modelled as `none`). -/
structure HostRecord where
  ip : String
  mac : String
  hostname : String
  vendor : String
  is_local : Bool
  private_mac : Bool
  device_type : Option String := none
  open_ports : Option (List Nat) := none
deriving DecidableEq

/-- Sort key: `[int(p) for p in ip.split('.')]`. -/
def ipKey (s : String) : List Nat :=
  (splitOnChar (Char.ofNat 46) s).map (fun p =>
    p.toList.foldl (fun acc c => acc * 10 + (c.toNat - 48)) 0)

/-- Lexicographic strict comparison of sort keys. -/
def keyLt : List Nat → List Nat → Bool
  | [], [] => false
  | [], _ :: _ => true
  | _ :: _, [] => false
  | a :: as, b :: bs => if a < b then true else if b < a then false else keyLt as bs

/-- Stable insertion of an element into a key-sorted list. -/
def insertByKey (x : String) : List String → List String
  | [] => [x]
  | y :: ys => if keyLt (ipKey y) (ipKey x) then y :: insertByKey x ys else x :: y :: ys

/-- `sorted(list(discovered_hosts), key=ipKey)` as a stable insertion sort. -/
def sortIps : List String → List String
  | [] => []
  | x :: xs => insertByKey x (sortIps xs)

/-- Building `scan_results` (source lines 3618-3630): one record per
discovered address; `macOf` and `hostnameOf` abstract the
`get_mac_address` / hostname-chain environment lookups. -/
def buildScanResults (discovered : List String) (localIp : String)
    (macOf hostnameOf : String → String) : List HostRecord :=
  discovered.map (fun ip =>
    { ip := ip
      mac := macOf ip
      hostname := hostnameOf ip
      vendor := get_vendor_from_mac (macOf ip)
      is_local := ip == localIp
      private_mac := is_private_mac (macOf ip) })

/-- The complete `scan_results` list produced by one run of
`network_scanner`, as a function of the phase outputs. -/
def network_scanner_results (nr : String) (arpHosts nmapHosts : List String)
    (alive : String → Bool) (finalArpHosts : List String) (localIp : String)
    (macOf hostnameOf : String → String) : List HostRecord :=
  buildScanResults (sortIps (network_scanner_hosts nr arpHosts nmapHosts alive finalArpHosts))
    localIp macOf hostnameOf

/-! ### `deep_scan_devices` pass over the records (source lines 3747-3812) -/

/-- The open ports found for one address: the subset of
`ports_to_scan` whose TCP connect succeeded (`probe ip port`
abstracts `connect_ex == 0`; a per-port exception is absorbed and
counts as closed). -/
def scannedOpenPorts (probe : String → Nat → Bool) (ip : String) : List Nat :=
  ports_to_scan.filter (probe ip)

/-- The `deep_scan_devices` loop: local records are skipped entirely
(`continue` before any probing), every other record is port-probed and
gains `device_type` and `open_ports`. Returns the updated records and
the list of addresses that were actually port-probed. -/
def deep_scan_devices (probe : String → Nat → Bool) :
    List HostRecord → List HostRecord × List String
  | [] => ([], [])
  | d :: rest =>
    let tail := deep_scan_devices probe rest
    if d.is_local then (d :: tail.1, tail.2)
    else
      ({ d with
          device_type := some (classifyDevice (scannedOpenPorts probe d.ip) d.private_mac)
          open_ports := some (scannedOpenPorts probe d.ip) } :: tail.1,
        d.ip :: tail.2)

/-! ### `wake_on_lan_menu` packet construction (source lines 4226-4249) -/

/-- Strip the `:` `-` `.` separators and uppercase, as
`mac.replace(':','').replace('-','').replace('.','').upper()`. -/
def cleanMac (mac : String) : String :=
  upperStr ((mac.toList.filter (fun c => !(c == ':' || c == '-' || c == '.'))).asString)

/-- ASCII hex digit test, as accepted by `bytes.fromhex`. -/
def isHexChar (c : Char) : Bool :=
  c.isDigit || ('A' ≤ c && c ≤ 'F') || ('a' ≤ c && c ≤ 'f')

/-- Value of one hex digit. -/
def hexVal (c : Char) : Nat :=
  if c.isDigit then c.toNat - '0'.toNat
  else if 'a' ≤ c && c ≤ 'f' then c.toNat - 'a'.toNat + 10
  else c.toNat - 'A'.toNat + 10

/-- `bytes.fromhex`: pairs of hex digits, spaces permitted between
byte pairs, anything else a `ValueError` (`none`). -/
def fromhexAux : List Char → Option (List Nat)
  | [] => some []
  | c :: cs =>
    if c == ' ' then fromhexAux cs
    else
      match cs with
      | c2 :: rest =>
        if isHexChar c && isHexChar c2 then
          (fromhexAux rest).map (fun bs => (hexVal c * 16 + hexVal c2) :: bs)
        else none
      | [] => none

/-- `bytes.fromhex` on a string. -/
def bytesFromHex (s : String) : Option (List Nat) := fromhexAux s.toList

/-- A sent UDP datagram: destination address, destination port, payload. -/
structure WolSend where
  destAddr : String
  destPort : Nat
  payload : List Nat
deriving DecidableEq

/-- Outcome of the Wake-on-LAN attempt: the "Invalid MAC address
format" early return, the `except` branch ("Error sending packet"),
or a successful single broadcast send. -/
inductive WolResult where
  | invalidAddress
  | sendError
  | sent (s : WolSend)
deriving DecidableEq

/-- `magic_packet = b'\xff' * 6 + mac_bytes * 16`. -/
def magicPacket (macBytes : List Nat) : List Nat :=
  List.replicate 6 255 ++ (List.replicate 16 macBytes).flatten

/-- The validation/build/send tail of `wake_on_lan_menu` (source lines
4226-4249): length check on the cleaned address, `bytes.fromhex`
(whose `ValueError` is caught by the generic `except` branch), then a
single `sendto` of the magic packet to `('255.255.255.255', 9)`. -/
def wake_on_lan (macToWake : String) : WolResult :=
  let macClean := cleanMac macToWake
  if macClean.length ≠ 12 then .invalidAddress
  else
    match bytesFromHex macClean with
    | none => .sendError
    | some macBytes => .sent ⟨"255.255.255.255", 9, magicPacket macBytes⟩

/-! ### `scan_ip` liveness probing (source lines 3316-3343, 3409-3420, 3482-3494) -/

/-- `common_ports` of `scan_host_socket`. -/
def common_ports : List Nat := [80, 443, 22, 445, 139, 21, 23, 8080, 3389]

/-- Raw outcomes of the individual probe operations for one address:
`.error` is any raised exception (timeout, connection refused,
permission denied, missing external command). -/
structure ProbeEnv where
  pingRun : Except Unit Int
  arpingRun : Except Unit (Int × String)
  connectEx : Nat → Except Unit Int

/-- `ping_host` (lines 3316-3328): true iff the subprocess ran and
exited 0; every exception is absorbed to `False`. -/
def ping_host (env : ProbeEnv) : Bool :=
  match env.pingRun with
  | .ok rc => rc == 0
  | .error _ => false

/-- `arping_host` (lines 3409-3420): exit 0 or a "reply from" line;
every exception is absorbed to `False`. -/
def arping_host (env : ProbeEnv) : Bool :=
  match env.arpingRun with
  | .ok (rc, out) => rc == 0 || strContains (lowerStr out) "reply from"
  | .error _ => false

/-- `scan_host_socket` (lines 3330-3343): true iff some common port's
`connect_ex` returned 0; a per-port exception is absorbed and the loop
continues. -/
def scan_host_socket (env : ProbeEnv) : Bool :=
  common_ports.any (fun port =>
    match env.connectEx port with
    | .ok r => r == 0
    | .error _ => false)

/-- `scan_ip` (lines 3482-3494) reduced to its liveness verdict:
already-discovered addresses are skipped, otherwise the three probes
are tried in order until one succeeds. -/
def scan_ip_alive (alreadyDiscovered : Bool) (env : ProbeEnv) : Bool :=
  if alreadyDiscovered then false
  else if ping_host env then true
  else if arping_host env then true
  else if scan_host_socket env then true
  else false

/-! ### Statement-side auxiliary definitions -/

/-- Spec-side characterization (from the claim's words): the second
character of the address is a hex digit in 2/6/A/E, case-insensitive.
Used to compare the claim's wording against `is_private_mac` and
`get_vendor_from_mac`. -/
def specSecondCharPrivate (mac : String) : Bool :=
  match secondCharOf mac with
  | some c => privateSecondChar c
  | none => false

/-- Snd-maximum of a scored list with Python's `max` default base 0. -/
def maxSnd (l : List (String × Nat)) : Nat := (l.map Prod.snd).foldr max 0

/-- Sample records for concrete instantiations. -/
def sampleLocal : HostRecord :=
  { ip := "10.0.0.2", mac := "AA:BB:CC:DD:EE:01", hostname := "mine",
    vendor := "Unknown Vendor", is_local := true, private_mac := false }

/-- Sample non-local record for concrete instantiations. -/
def sampleRemote : HostRecord :=
  { ip := "10.0.0.7", mac := "AA:BB:CC:DD:EE:02", hostname := "web",
    vendor := "Unknown Vendor", is_local := false, private_mac := false }

/-! ## Helper lemmas -/

theorem mem_insertByKey {a x : String} {l : List String} :
    a ∈ insertByKey x l ↔ a = x ∨ a ∈ l := by
  induction l with
  | nil => simp [insertByKey]
  | cons y ys ih =>
    simp only [insertByKey]
    split <;> simp [ih] <;> tauto

theorem mem_sortIps {a : String} {l : List String} : a ∈ sortIps l ↔ a ∈ l := by
  induction l with
  | nil => simp [sortIps]
  | cons x xs ih => simp [sortIps, mem_insertByKey, ih]

theorem secondCharOf_some_len {mac : String} {c : Char}
    (h : secondCharOf mac = some c) : 2 ≤ mac.length := by
  have hl : mac.length = mac.toList.length := rfl
  unfold secondCharOf at h
  cases hm : mac.toList with
  | nil => rw [hm] at h; exact absurd h (by simp)
  | cons c1 t =>
    cases t with
    | nil => rw [hm] at h; exact absurd h (by simp)
    | cons c2 t2 => rw [hl, hm]; simp

theorem connect_ok_iff (e : Except Unit Int) :
    (match e with | .ok r => r == 0 | .error _ => false) = true ↔
      ∃ r, e = .ok r ∧ r = 0 := by
  cases e <;> simp

theorem ping_host_iff (env : ProbeEnv) :
    ping_host env = true ↔ ∃ rc, env.pingRun = .ok rc ∧ rc = 0 := by
  unfold ping_host
  cases env.pingRun <;> simp

theorem arping_host_iff (env : ProbeEnv) :
    arping_host env = true ↔
      ∃ rc out, env.arpingRun = .ok (rc, out) ∧
        (rc = 0 ∨ strContains (lowerStr out) "reply from" = true) := by
  unfold arping_host
  cases h : env.arpingRun with
  | ok p =>
    obtain ⟨rc, out⟩ := p
    show (rc == 0 || strContains (lowerStr out) "reply from") = true ↔ _
    constructor
    · intro hb
      refine ⟨rc, out, rfl, ?_⟩
      have hb2 : rc = 0 ∨ strContains (lowerStr out) "reply from" = true := by
        simpa using hb
      exact hb2
    · rintro ⟨rc2, out2, heq, hor⟩
      injection heq with heq2
      injection heq2 with ha hb
      subst ha; subst hb
      rcases hor with h0 | h1
      · simp [h0]
      · simp [h1]
  | error e => simp

theorem scan_host_socket_iff (env : ProbeEnv) :
    scan_host_socket env = true ↔
      ∃ p ∈ common_ports, ∃ r, env.connectEx p = .ok r ∧ r = 0 := by
  unfold scan_host_socket
  rw [List.any_eq_true]
  simp only [connect_ok_iff]

theorem scan_ip_alive_or (env : ProbeEnv) :
    scan_ip_alive false env =
      (ping_host env || arping_host env || scan_host_socket env) := by
  unfold scan_ip_alive
  cases hp : ping_host env <;> cases ha : arping_host env <;>
    cases hs : scan_host_socket env <;> simp [hp, ha, hs]

/-! ## Claims -/

/-- C9: every hardware address whose second character is a hex digit in
2/6/A/E (case-insensitive) resolves to "Private MAC" even when its
three-octet prefix is in the static vendor table (for example
`52:54:00`, which the table maps to "Realtek"), and `is_private_mac`
is true for exactly these addresses. -/
theorem c9_private_mac_wins :
    (∀ mac : String, specSecondCharPrivate mac = true →
        get_vendor_from_mac mac = "Private MAC") ∧
    (∀ mac : String, is_private_mac mac = specSecondCharPrivate mac) ∧
    (get_vendor_from_mac "52:54:00:12:34:56" = "Private MAC" ∧
      dictGet vendors "52:54:00" = some "Realtek") := by
  refine ⟨?_, ?_, by decide⟩
  · intro mac h
    by_cases hU : mac = "Unknown"
    · subst hU; exact absurd h (by decide)
    · cases hc : secondCharOf mac with
      | none => simp [specSecondCharPrivate, hc] at h
      | some c =>
        have hp : privateSecondChar c = true := by
          simpa [specSecondCharPrivate, hc] using h
        simp [get_vendor_from_mac, hU, hc, hp]
  · intro mac
    by_cases hU : mac = "Unknown"
    · subst hU; decide
    · cases hc : secondCharOf mac with
      | none => simp [is_private_mac, specSecondCharPrivate, hU, hc]
      | some c =>
        have h2 : ¬ mac.length < 2 := by
          have := secondCharOf_some_len hc; omega
        simp [is_private_mac, specSecondCharPrivate, hU, h2, hc]

/-- Witness for C9 at the concrete randomized address
`A6:00:11:22:33:44` (second character 6). -/
theorem c9_witness :
    specSecondCharPrivate "A6:00:11:22:33:44" = true ∧
    get_vendor_from_mac "A6:00:11:22:33:44" = "Private MAC" ∧
    is_private_mac "A6:00:11:22:33:44" = specSecondCharPrivate "A6:00:11:22:33:44" :=
  ⟨by decide, c9_private_mac_wins.1 "A6:00:11:22:33:44" (by decide),
    c9_private_mac_wins.2.1 "A6:00:11:22:33:44"⟩

/-- C2: every address returned by the neighbor-table read is a member
of the final discovered host set, whatever the other phases (nmap,
active probing, final ARP re-read) contribute — phases are only ever
unioned in. -/
theorem c2_arp_hosts_survive :
    ∀ (nr : String) (envPre envPost : ArpEnv) (nmapHosts : List String)
      (alive : String → Bool) (a : String),
      a ∈ get_arp_cache_hosts nr envPre →
      a ∈ network_scanner_hosts nr (get_arp_cache_hosts nr envPre) nmapHosts alive
            (get_arp_cache_hosts nr envPost) := by
  intro nr envPre envPost nmapHosts alive a h
  simp only [network_scanner_hosts, List.mem_dedup, List.mem_append]
  tauto

/-- Witness for C2: with `arp -a` and `arp -n` unavailable and one
`/proc/net/arp` entry, the parsed address survives into the final host
set even though active probing reports nothing alive. -/
theorem c2_witness :
    "1.2.3.4" ∈ get_arp_cache_hosts "1.2.3"
        ⟨.error (), .error (), .ok (some "1.2.3.4 0x1 0x2 aa:bb:cc:dd:ee:ff * eth0")⟩ ∧
    "1.2.3.4" ∈ network_scanner_hosts "1.2.3"
        (get_arp_cache_hosts "1.2.3"
          ⟨.error (), .error (), .ok (some "1.2.3.4 0x1 0x2 aa:bb:cc:dd:ee:ff * eth0")⟩)
        [] (fun _ => false)
        (get_arp_cache_hosts "1.2.3" ⟨.error (), .error (), .error ()⟩) :=
  have hmem : "1.2.3.4" ∈ get_arp_cache_hosts "1.2.3"
      ⟨.error (), .error (), .ok (some "1.2.3.4 0x1 0x2 aa:bb:cc:dd:ee:ff * eth0")⟩ := by
    rw [show get_arp_cache_hosts "1.2.3"
        ⟨.error (), .error (), .ok (some "1.2.3.4 0x1 0x2 aa:bb:cc:dd:ee:ff * eth0")⟩
      = ["1.2.3.4"] from rfl]
    exact List.mem_singleton.mpr rfl
  ⟨hmem,
    c2_arp_hosts_survive "1.2.3"
      ⟨.error (), .error (), .ok (some "1.2.3.4 0x1 0x2 aa:bb:cc:dd:ee:ff * eth0")⟩
      ⟨.error (), .error (), .error ()⟩ [] (fun _ => false) "1.2.3.4" hmem⟩

/-- C7: the per-address liveness check absorbs every probe failure
(modelled as the `.error` outcome of the raw operation): it returns
true exactly when some probe's raw outcome is a success — ping exit 0,
arping exit 0 or a "reply from" line, or a zero `connect_ex` on some
common port — and in particular returns false (rather than raising)
when every probe raises. -/
theorem c7_liveness_absorbs_failures :
    ∀ env : ProbeEnv,
      (scan_ip_alive false env = true ↔
        ((∃ rc, env.pingRun = .ok rc ∧ rc = 0) ∨
          (∃ rc out, env.arpingRun = .ok (rc, out) ∧
            (rc = 0 ∨ strContains (lowerStr out) "reply from" = true)) ∨
          (∃ p ∈ common_ports, ∃ r, env.connectEx p = .ok r ∧ r = 0))) ∧
      ((env.pingRun = .error () ∧ env.arpingRun = .error () ∧
          ∀ p, env.connectEx p = .error ()) →
        scan_ip_alive false env = false) := by
  intro env
  constructor
  · rw [scan_ip_alive_or]
    simp only [Bool.or_eq_true, ping_host_iff, arping_host_iff, scan_host_socket_iff]
    exact or_assoc
  · rintro ⟨h1, h2, h3⟩
    rw [scan_ip_alive_or]
    simp [ping_host, arping_host, scan_host_socket, h1, h2, h3]

/-- Witness for C7: a ping exit code 0 alone yields true; with every
probe raising, the check returns false. -/
theorem c7_witness :
    scan_ip_alive false ⟨.ok 0, .error (), fun _ => .error ()⟩ = true ∧
    scan_ip_alive false ⟨.error (), .error (), fun _ => .error ()⟩ = false :=
  ⟨(c7_liveness_absorbs_failures ⟨.ok 0, .error (), fun _ => .error ()⟩).1.mpr
      (Or.inl ⟨0, rfl, rfl⟩),
    (c7_liveness_absorbs_failures ⟨.error (), .error (), fun _ => .error ()⟩).2
      ⟨rfl, rfl, fun _ => rfl⟩⟩

theorem fromhexAux_all_hex : ∀ (cs : List Char),
    (∀ c ∈ cs, isHexChar c = true) → cs.length % 2 = 0 →
    ∃ bs, fromhexAux cs = some bs ∧ bs.length = cs.length / 2
  | [], _, _ => ⟨[], rfl, rfl⟩
  | [c], _, hl => by simp at hl
  | c1 :: c2 :: cs, h, hl => by
    have h1 : isHexChar c1 = true := h c1 (by simp)
    have h2 : isHexChar c2 = true := h c2 (by simp)
    have hc1 : (c1 == ' ') = false := by
      cases hcc : c1 == ' ' with
      | false => rfl
      | true =>
        rw [beq_iff_eq.mp hcc] at h1
        exact absurd h1 (by decide)
    have hlen : cs.length % 2 = 0 := by
      have h' : (c1 :: c2 :: cs).length = cs.length + 2 := by simp
      omega
    obtain ⟨bs, hbs, hblen⟩ :=
      fromhexAux_all_hex cs (fun c hc => h c (by simp [hc])) hlen
    refine ⟨(hexVal c1 * 16 + hexVal c2) :: bs, ?_, ?_⟩
    · simp [fromhexAux, hc1, h1, h2, hbs]
    · simp only [List.length_cons]
      omega

/-- C4 (amended): if the cleaned address does not have length 12, the
sender reports the invalid-address error and performs no send; if it
has length 12 but is not hex-decodable, the generic send-error branch
fires (still with no send); if it decodes, exactly one broadcast
datagram is sent to 255.255.255.255 port 9 whose payload is 6 bytes of
0xFF followed by the decoded hardware address repeated 16 times — 102
bytes when the cleaned address is 12 hex digits. -/
theorem c4_wol_packet :
    ∀ mac : String,
      ((cleanMac mac).length ≠ 12 → wake_on_lan mac = .invalidAddress) ∧
      ((cleanMac mac).length = 12 → bytesFromHex (cleanMac mac) = none →
        wake_on_lan mac = .sendError) ∧
      (∀ bs, (cleanMac mac).length = 12 → bytesFromHex (cleanMac mac) = some bs →
        wake_on_lan mac = .sent ⟨"255.255.255.255", 9, magicPacket bs⟩ ∧
        magicPacket bs = List.replicate 6 255 ++ (List.replicate 16 bs).flatten) ∧
      ((cleanMac mac).length = 12 →
        (∀ c ∈ (cleanMac mac).toList, isHexChar c = true) →
        ∃ bs, bs.length = 6 ∧
          wake_on_lan mac = .sent ⟨"255.255.255.255", 9, magicPacket bs⟩ ∧
          (magicPacket bs).length = 102) := by
  intro mac
  refine ⟨?_, ?_, ?_, ?_⟩
  · intro h; simp [wake_on_lan, h]
  · intro h12 hn; simp [wake_on_lan, h12, hn]
  · intro bs h12 hs
    exact ⟨by simp [wake_on_lan, h12, hs], rfl⟩
  · intro h12 hhex
    have hlen2 : (cleanMac mac).toList.length % 2 = 0 := by
      have h' : (cleanMac mac).toList.length = (cleanMac mac).length := rfl
      omega
    obtain ⟨bs, hbs, hblen⟩ := fromhexAux_all_hex (cleanMac mac).toList hhex hlen2
    have hbs' : bytesFromHex (cleanMac mac) = some bs := hbs
    have hb6 : bs.length = 6 := by
      have h' : (cleanMac mac).toList.length = (cleanMac mac).length := rfl
      omega
    refine ⟨bs, hb6, by simp [wake_on_lan, h12, hbs'], ?_⟩
    simp [magicPacket, List.length_flatten, List.map_replicate, List.sum_replicate, hb6]

/-- Witness for C4 at the valid address `AA:BB:CC:DD:EE:FF` (with
separators) and the short address `AA:BB:CC`. -/
theorem c4_witness :
    (cleanMac "AA:BB:CC:DD:EE:FF").length = 12 ∧
    wake_on_lan "AA:BB:CC:DD:EE:FF" =
      .sent ⟨"255.255.255.255", 9, magicPacket [170, 187, 204, 221, 238, 255]⟩ ∧
    (magicPacket [170, 187, 204, 221, 238, 255]).length = 102 ∧
    wake_on_lan "AA:BB:CC" = .invalidAddress :=
  ⟨by decide,
    ((c4_wol_packet "AA:BB:CC:DD:EE:FF").2.2.1 [170, 187, 204, 221, 238, 255]
      (by decide) (by decide)).1,
    by decide,
    (c4_wol_packet "AA:BB:CC").1 (by decide)⟩

/-- Counterexample for C4 as stated: `"GGGGGGGGGGGG"` does not consist
of 12 hex digits after stripping separators, yet the code does not
report the invalid-address error — its length-12 check passes and the
`bytes.fromhex` failure lands in the generic send-error branch (no
send is performed either way). -/
theorem c4_counterexample :
    (cleanMac "GGGGGGGGGGGG").length = 12 ∧
    (∃ c ∈ (cleanMac "GGGGGGGGGGGG").toList, isHexChar c = false) ∧
    wake_on_lan "GGGGGGGGGGGG" = .sendError ∧
    wake_on_lan "GGGGGGGGGGGG" ≠ .invalidAddress := by decide

theorem positiveScores_nil {sigs : List (String × List Nat)} {ports : List Nat}
    (h : ∀ s ∈ sigs, sigScore ports s.2 = 0) : positiveScores sigs ports = [] := by
  induction sigs with
  | nil => rfl
  | cons s ss ih =>
    have h0 := h s (by simp)
    have ht : positiveScores ss ports = [] := ih (fun t ht => h t (by simp [ht]))
    simp only [positiveScores, List.filterMap_cons, h0] at ht ⊢
    simp [ht]

/-- C5 (amended): the Mobile-Device/Stealth fallback fires exactly
when the open-port list is empty; when the open-port list is non-empty
but every signature scores zero, the classification is the initial
value "Unknown Device", not the fallback. -/
theorem c5_zero_score_fallback :
    ∀ (openPorts : List Nat) (privateMac : Bool),
      (openPorts = [] →
        classifyDevice openPorts privateMac =
          if privateMac then "📱 Mobile Device" else "Stealth/Firewall") ∧
      ((openPorts ≠ [] ∧ ∀ s ∈ device_signatures, sigScore openPorts s.2 = 0) →
        classifyDevice openPorts privateMac = "Unknown Device") := by
  intro openPorts pm
  constructor
  · rintro rfl
    cases pm <;> rfl
  · rintro ⟨hne, hz⟩
    have h0 : positiveScores device_signatures openPorts = [] := positiveScores_nil hz
    have hni : openPorts.isEmpty = false := by
      cases openPorts with
      | nil => exact absurd rfl hne
      | cons _ _ => rfl
    simp [classifyDevice, classifyOver, h0, hni]

/-- Witness for C5: the empty port list falls back per the
private-MAC flag, and the all-zero-score port list `[3389]` classifies
as "Unknown Device". -/
theorem c5_witness :
    classifyDevice [] true = "📱 Mobile Device" ∧
    classifyDevice [] false = "Stealth/Firewall" ∧
    classifyDevice [3389] false = "Unknown Device" :=
  ⟨(c5_zero_score_fallback [] true).1 rfl,
    (c5_zero_score_fallback [] false).1 rfl,
    (c5_zero_score_fallback [3389] false).2 ⟨by decide, by decide⟩⟩

/-- Counterexample for C5 as stated: `[3389]` (RDP only — scanned but
in no signature) gives every signature a zero score, yet the
classification is "Unknown Device", not the claimed Mobile/Stealth
fallback. -/
theorem c5_counterexample :
    (∀ s ∈ device_signatures, sigScore [3389] s.2 = 0) ∧
    classifyDevice [3389] false = "Unknown Device" ∧
    classifyDevice [3389] true = "Unknown Device" ∧
    "Unknown Device" ≠ "Stealth/Firewall" ∧
    "Unknown Device" ≠ "📱 Mobile Device" := by decide

/-- C1 (amended): whenever the local address is discovered by some
phase, its record in `scan_results` carries `is_local = true`; and the
monitor loop's leave-diffing never evicts the local address from the
known set (it is subtracted out of `gone_ips` before any deletion).
The scan does not otherwise force the local address into the result
(see the counterexample). -/
theorem c1_local_flag_and_monitor_exempt :
    (∀ (nr : String) (arpHosts nmapHosts : List String) (alive : String → Bool)
        (finalArpHosts : List String) (localIp : String)
        (macOf hostnameOf : String → String),
      localIp ∈ network_scanner_hosts nr arpHosts nmapHosts alive finalArpHosts →
      ∃ r ∈ network_scanner_results nr arpHosts nmapHosts alive finalArpHosts
          localIp macOf hostnameOf,
        r.ip = localIp ∧ r.is_local = true) ∧
    (∀ (localIp : String) (known current : Finset String),
      localIp ∈ known → localIp ∈ (monitorStep localIp known current).2.2) := by
  constructor
  · intro nr arpHosts nmapHosts alive finalArpHosts localIp macOf hostnameOf h
    have hs : localIp ∈
        sortIps (network_scanner_hosts nr arpHosts nmapHosts alive finalArpHosts) :=
      mem_sortIps.mpr h
    refine ⟨{ ip := localIp, mac := macOf localIp, hostname := hostnameOf localIp,
              vendor := get_vendor_from_mac (macOf localIp),
              is_local := localIp == localIp,
              private_mac := is_private_mac (macOf localIp) },
      List.mem_map.mpr ⟨localIp, hs, rfl⟩, rfl, ?_⟩
    simp
  · intro localIp known current h
    simp only [monitorStep, Finset.mem_sdiff, Finset.mem_union, Finset.mem_singleton]
    tauto

/-- Witness for C1: a scan whose ARP phase finds the local address
produces its record flagged `is_local`; the monitor step keeps the
local address even when the cycle's alive set is empty. -/
theorem c1_witness :
    ("1.2.3.5" ∈ network_scanner_hosts "1.2.3" ["1.2.3.5"] [] (fun _ => false) [] ∧
      ∃ r ∈ network_scanner_results "1.2.3" ["1.2.3.5"] [] (fun _ => false) []
          "1.2.3.5" (fun _ => "Unknown") (fun _ => "Unknown"),
        r.ip = "1.2.3.5" ∧ r.is_local = true) ∧
    "1.2.3.5" ∈ (monitorStep "1.2.3.5" {"1.2.3.5"} ∅).2.2 :=
  ⟨⟨by decide,
      c1_local_flag_and_monitor_exempt.1 "1.2.3" ["1.2.3.5"] [] (fun _ => false) []
        "1.2.3.5" (fun _ => "Unknown") (fun _ => "Unknown") (by decide)⟩,
    c1_local_flag_and_monitor_exempt.2 "1.2.3.5" {"1.2.3.5"} ∅ (by decide)⟩

/-- Counterexample for C1 as stated: when no discovery phase reports
the local address (here `1.2.3.5`, with only `1.2.3.9` found), the
final `scan_results` does not contain the local machine at all — the
code never force-inserts it. -/
theorem c1_counterexample :
    ¬ ∃ r ∈ network_scanner_results "1.2.3" ["1.2.3.9"] [] (fun _ => false) []
        "1.2.3.5" (fun _ => "Unknown") (fun _ => "Unknown"),
      r.ip = "1.2.3.5" := by decide

theorem arpALineHost_some {nr line ip : String}
    (h : arpALineHost nr line = some ip) :
    strStartsWith ip (nr ++ ".") = true ∧
    strContains (lowerStr line) "incomplete" = false := by
  unfold arpALineHost at h
  cases hf : findParenIp line.toList with
  | none => simp only [hf] at h; exact absurd h (by simp)
  | some ip0 =>
    simp only [hf] at h
    split at h
    next hcond =>
      injection h with h'
      subst h'
      simp only [Bool.and_eq_true, Bool.not_eq_true'] at hcond
      exact ⟨hcond.1.1, hcond.1.2⟩
    next => exact absurd h (by simp)

theorem arpNLineHost_some {nr line ip : String}
    (h : arpNLineHost nr line = some ip) :
    strStartsWith ip (nr ++ ".") = true ∧
    strContains (lowerStr line) "incomplete" = false := by
  unfold arpNLineHost at h
  rcases hw : pyWords line with _ | ⟨p1, _ | ⟨p2, _ | ⟨p3, rest⟩⟩⟩ <;>
    simp only [hw] at h
  · exact absurd h (by simp)
  · exact absurd h (by simp)
  · exact absurd h (by simp)
  · split at h
    next hcond =>
      injection h with h'
      subst h'
      simp only [Bool.and_eq_true, Bool.not_eq_true'] at hcond
      exact ⟨hcond.1.2, hcond.2⟩
    next => exact absurd h (by simp)

theorem procLineHost_some {nr line ip : String}
    (h : procLineHost nr line = some ip) :
    strStartsWith ip (nr ++ ".") = true ∧
    ∃ p2 flags rest, pyWords line = ip :: p2 :: flags :: rest ∧ flags ≠ "0x0" := by
  unfold procLineHost at h
  rcases hw : pyWords line with _ | ⟨p1, _ | ⟨p2, _ | ⟨p3, _ | ⟨p4, rest⟩⟩⟩⟩ <;>
    simp only [hw] at h
  · exact absurd h (by simp)
  · exact absurd h (by simp)
  · exact absurd h (by simp)
  · exact absurd h (by simp)
  · split at h
    next hcond =>
      injection h with h'
      subst h'
      simp only [Bool.and_eq_true, bne_iff_ne] at hcond
      exact ⟨hcond.1.2, p2, p3, p4 :: rest, rfl, hcond.2⟩
    next => exact absurd h (by simp)

theorem mem_arpAHosts {nr ip : String} {e : Except Unit (Int × String)}
    (hip : ip ∈ arpAHosts nr e) :
    ∃ rc out line, e = .ok (rc, out) ∧ line ∈ splitLines out ∧
      arpALineHost nr line = some ip := by
  cases e with
  | error u => simp [arpAHosts] at hip
  | ok p =>
    obtain ⟨rc, out⟩ := p
    simp only [arpAHosts] at hip
    split at hip
    · obtain ⟨line, hline, hsome⟩ := List.mem_filterMap.mp hip
      exact ⟨rc, out, line, rfl, hline, hsome⟩
    · exact absurd hip (by simp)

theorem mem_arpNHosts {nr ip : String} {e : Except Unit (Int × String)}
    (hip : ip ∈ arpNHosts nr e) :
    ∃ rc out line, e = .ok (rc, out) ∧ line ∈ splitLines out ∧
      arpNLineHost nr line = some ip := by
  cases e with
  | error u => simp [arpNHosts] at hip
  | ok p =>
    obtain ⟨rc, out⟩ := p
    simp only [arpNHosts] at hip
    split at hip
    · obtain ⟨line, hline, hsome⟩ := List.mem_filterMap.mp hip
      exact ⟨rc, out, line, rfl, hline, hsome⟩
    · exact absurd hip (by simp)

theorem mem_procHosts {nr ip : String} {e : Except Unit (Option String)}
    (hip : ip ∈ procHosts nr e) :
    ∃ content line, e = .ok (some content) ∧ line ∈ splitLines content ∧
      procLineHost nr line = some ip := by
  cases e with
  | error u => simp [procHosts] at hip
  | ok o =>
    cases o with
    | none => simp [procHosts] at hip
    | some content =>
      simp only [procHosts] at hip
      obtain ⟨line, hline, hsome⟩ := List.mem_filterMap.mp hip
      exact ⟨content, line, rfl, hline, hsome⟩

/-- C8 (amended): the neighbor-table reader is total (never raises); a
source whose read raised contributes nothing, so when `arp -a` and
`arp -n` raise and `/proc/net/arp` is absent or unreadable the result
is empty; and every returned address starts with the segment prefix
and is parsed out of an entry that is not marked incomplete (for
`/proc/net/arp`: whose flags field is not `0x0`). A failing source
does not empty the whole result — see the counterexample. -/
theorem c8_arp_reader_contract :
    ∀ (nr : String) (env : ArpEnv),
      ((env.arpA = .error () ∧ env.arpN = .error () ∧
          (env.procNetArp = .error () ∨ env.procNetArp = .ok none)) →
        get_arp_cache_hosts nr env = []) ∧
      (∀ ip ∈ get_arp_cache_hosts nr env,
        strStartsWith ip (nr ++ ".") = true ∧
        ((∃ rc out line, env.arpA = .ok (rc, out) ∧ line ∈ splitLines out ∧
            strContains (lowerStr line) "incomplete" = false ∧
            arpALineHost nr line = some ip) ∨
          (∃ rc out line, env.arpN = .ok (rc, out) ∧ line ∈ splitLines out ∧
            strContains (lowerStr line) "incomplete" = false ∧
            arpNLineHost nr line = some ip) ∨
          (∃ content line, env.procNetArp = .ok (some content) ∧
            line ∈ splitLines content ∧
            (∃ p2 flags rest, pyWords line = ip :: p2 :: flags :: rest ∧
              flags ≠ "0x0") ∧
            procLineHost nr line = some ip))) := by
  intro nr env
  constructor
  · rintro ⟨hA, hN, hP⟩
    unfold get_arp_cache_hosts
    rw [hA, hN]
    rcases hP with hP | hP <;> rw [hP] <;> rfl
  · intro ip hip
    simp only [get_arp_cache_hosts, List.mem_dedup, List.mem_append] at hip
    rcases hip with (h | h) | h
    · obtain ⟨rc, out, line, he, hline, hsome⟩ := mem_arpAHosts h
      obtain ⟨hpre, hinc⟩ := arpALineHost_some hsome
      exact ⟨hpre, Or.inl ⟨rc, out, line, he, hline, hinc, hsome⟩⟩
    · obtain ⟨rc, out, line, he, hline, hsome⟩ := mem_arpNHosts h
      obtain ⟨hpre, hinc⟩ := arpNLineHost_some hsome
      exact ⟨hpre, Or.inr (Or.inl ⟨rc, out, line, he, hline, hinc, hsome⟩)⟩
    · obtain ⟨content, line, he, hline, hsome⟩ := mem_procHosts h
      obtain ⟨hpre, hflags⟩ := procLineHost_some hsome
      exact ⟨hpre, Or.inr (Or.inr ⟨content, line, he, hline, hflags, hsome⟩)⟩

/-- Witness for C8: all three sources raising yields the empty result,
and the single address parsed from a one-entry `/proc/net/arp` carries
the segment prefix. -/
theorem c8_witness :
    get_arp_cache_hosts "1.2.3" ⟨.error (), .error (), .error ()⟩ = [] ∧
    strStartsWith "1.2.3.4" ("1.2.3" ++ ".") = true :=
  have hmem : "1.2.3.4" ∈ get_arp_cache_hosts "1.2.3"
      ⟨.error (), .error (), .ok (some "1.2.3.4 0x1 0x2 aa:bb:cc:dd:ee:ff * eth0")⟩ := by
    rw [show get_arp_cache_hosts "1.2.3"
        ⟨.error (), .error (), .ok (some "1.2.3.4 0x1 0x2 aa:bb:cc:dd:ee:ff * eth0")⟩
      = ["1.2.3.4"] from rfl]
    exact List.mem_singleton.mpr rfl
  ⟨(c8_arp_reader_contract "1.2.3" ⟨.error (), .error (), .error ()⟩).1
      ⟨rfl, rfl, Or.inl rfl⟩,
    ((c8_arp_reader_contract "1.2.3"
        ⟨.error (), .error (), .ok (some "1.2.3.4 0x1 0x2 aa:bb:cc:dd:ee:ff * eth0")⟩).2
      "1.2.3.4" hmem).1⟩

/-- Counterexample for C8 as stated: with the `arp -a` read raising
(an access failure) but `/proc/net/arp` readable, the function does
not return an empty set — the surviving source's addresses are still
returned. -/
theorem c8_counterexample :
    (⟨.error (), .error (),
        .ok (some "1.2.3.4 0x1 0x2 aa:bb:cc:dd:ee:ff * eth0")⟩ : ArpEnv).arpA
      = .error () ∧
    get_arp_cache_hosts "1.2.3"
        ⟨.error (), .error (), .ok (some "1.2.3.4 0x1 0x2 aa:bb:cc:dd:ee:ff * eth0")⟩
      = ["1.2.3.4"] ∧
    get_arp_cache_hosts "1.2.3"
        ⟨.error (), .error (), .ok (some "1.2.3.4 0x1 0x2 aa:bb:cc:dd:ee:ff * eth0")⟩
      ≠ [] := by
  refine ⟨rfl, rfl, ?_⟩
  rw [show get_arp_cache_hosts "1.2.3"
      ⟨.error (), .error (), .ok (some "1.2.3.4 0x1 0x2 aa:bb:cc:dd:ee:ff * eth0")⟩
    = ["1.2.3.4"] from rfl]
  simp

/-- C3: over the alive-set sequence `[{a,b}, {a,b,c}, {a,c}]` with the
local address `l` (distinct from `a`, `b`, `c`) and an initial known
set containing `a`, `b` and `l`, the monitor diffing emits no joins in
cycle 1, exactly `{c}` as joined in cycle 2, exactly `{b}` as left in
cycle 3, never emits `a` (or `b` in cycles 1-2, or `c` as left), and
after each cycle the known set is the cycle's alive set plus `l`. -/
theorem c3_monitor_sequence :
    ∀ (a b c l : String) (K : Finset String),
      a ≠ b → a ≠ c → b ≠ c → a ≠ l → b ≠ l → c ≠ l →
      a ∈ K → b ∈ K → l ∈ K →
      (monitorStep l K {a, b}).1 = ∅ ∧
      a ∉ (monitorStep l K {a, b}).2.1 ∧
      b ∉ (monitorStep l K {a, b}).2.1 ∧
      (monitorStep l K {a, b}).2.2 = {a, b, l} ∧
      (monitorStep l {a, b, l} {a, b, c}).1 = {c} ∧
      (monitorStep l {a, b, l} {a, b, c}).2.1 = ∅ ∧
      (monitorStep l {a, b, l} {a, b, c}).2.2 = {a, b, c, l} ∧
      (monitorStep l {a, b, c, l} {a, c}).1 = ∅ ∧
      (monitorStep l {a, b, c, l} {a, c}).2.1 = {b} ∧
      (monitorStep l {a, b, c, l} {a, c}).2.2 = {a, c, l} := by
  intro a b c l K hab hac hbc hal hbl hcl haK hbK hlK
  have hba := Ne.symm hab
  have hca := Ne.symm hac
  have hcb := Ne.symm hbc
  have hla := Ne.symm hal
  have hlb := Ne.symm hbl
  have hlc := Ne.symm hcl
  refine ⟨?_, by simp [monitorStep], by simp [monitorStep], ?_, ?_, ?_, ?_, ?_, ?_, ?_⟩ <;>
  · ext x
    simp only [monitorStep, Finset.mem_sdiff, Finset.mem_union, Finset.mem_insert,
      Finset.mem_singleton]
    by_cases hxa : x = a <;> by_cases hxb : x = b <;> by_cases hxc : x = c <;>
      by_cases hxl : x = l <;> simp_all <;> tauto

/-- Witness for C3 at the concrete addresses a/b/c/l with initial
known set `{a, b, l}`. -/
theorem c3_witness :
    (monitorStep "l" {"a", "b", "l"} {"a", "b", "c"}).1 = {"c"} ∧
    (monitorStep "l" {"a", "b", "c", "l"} {"a", "c"}).2.1 = {"b"} ∧
    (monitorStep "l" ({"a", "b", "l"} : Finset String) {"a", "b"}).2.2 = {"a", "b", "l"} :=
  have h := c3_monitor_sequence "a" "b" "c" "l" {"a", "b", "l"}
    (by decide) (by decide) (by decide) (by decide) (by decide) (by decide)
    (by decide) (by decide) (by decide)
  ⟨h.2.2.2.2.1, h.2.2.2.2.2.2.2.2.1, h.2.2.2.1⟩

/-- C10: the deep-scan pass leaves every local record untouched (it is
skipped before any port probing, so it gains neither `open_ports` nor
`device_type` and its address is never probed), while every non-local
record keeps all its existing fields and gains exactly the
`device_type` and `open_ports` fields; the probed addresses are
exactly those of the non-local records. -/
theorem c10_deep_scan_frame :
    ∀ (probe : String → Nat → Bool) (devices : List HostRecord),
      (deep_scan_devices probe devices).1.length = devices.length ∧
      (deep_scan_devices probe devices).2 =
        (devices.filter (fun d => !d.is_local)).map HostRecord.ip ∧
      (∀ i d, devices.get? i = some d →
        (d.is_local = true → (deep_scan_devices probe devices).1.get? i = some d) ∧
        (d.is_local = false →
          ∃ r, (deep_scan_devices probe devices).1.get? i = some r ∧
            r.ip = d.ip ∧ r.mac = d.mac ∧ r.hostname = d.hostname ∧
            r.vendor = d.vendor ∧ r.is_local = d.is_local ∧
            r.private_mac = d.private_mac ∧
            r.device_type =
              some (classifyDevice (scannedOpenPorts probe d.ip) d.private_mac) ∧
            r.open_ports = some (scannedOpenPorts probe d.ip))) := by
  intro probe devices
  induction devices with
  | nil => exact ⟨rfl, rfl, fun i d h => by simp at h⟩
  | cons d0 rest ih =>
    obtain ⟨ih1, ih2, ih3⟩ := ih
    cases hloc : d0.is_local with
    | true =>
      refine ⟨?_, ?_, ?_⟩
      · simp [deep_scan_devices, hloc, ih1]
      · simp [deep_scan_devices, hloc, ih2, List.filter_cons]
      · intro i d h
        cases i with
        | zero =>
          injection h with h'
          subst h'
          constructor
          · intro _; simp [deep_scan_devices, hloc]
          · intro hfalse; rw [hloc] at hfalse; exact absurd hfalse (by simp)
        | succ n =>
          have h' : rest.get? n = some d := h
          constructor
          · intro hd
            have := (ih3 n d h').1 hd
            simpa [deep_scan_devices, hloc] using this
          · intro hd
            obtain ⟨r, hr, hrest⟩ := (ih3 n d h').2 hd
            exact ⟨r, by simpa [deep_scan_devices, hloc] using hr, hrest⟩
    | false =>
      refine ⟨?_, ?_, ?_⟩
      · simp [deep_scan_devices, hloc, ih1]
      · simp [deep_scan_devices, hloc, ih2, List.filter_cons]
      · intro i d h
        cases i with
        | zero =>
          injection h with h'
          subst h'
          constructor
          · intro htrue; rw [hloc] at htrue; exact absurd htrue (by simp)
          · intro _
            refine ⟨{ d0 with
                device_type :=
                  some (classifyDevice (scannedOpenPorts probe d0.ip) d0.private_mac)
                open_ports := some (scannedOpenPorts probe d0.ip) },
              by simp [deep_scan_devices, hloc], rfl, rfl, rfl, rfl, rfl, rfl, rfl, rfl⟩
        | succ n =>
          have h' : rest.get? n = some d := h
          constructor
          · intro hd
            have := (ih3 n d h').1 hd
            simpa [deep_scan_devices, hloc] using this
          · intro hd
            obtain ⟨r, hr, hrest⟩ := (ih3 n d h').2 hd
            exact ⟨r, by simpa [deep_scan_devices, hloc] using hr, hrest⟩

/-- Witness for C10 on a two-record list: the local record is returned
unchanged and unprobed, the non-local record gains the two fields. -/
theorem c10_witness :
    (deep_scan_devices (fun _ p => p == 80) [sampleLocal, sampleRemote]).1.get? 0 =
      some sampleLocal ∧
    (deep_scan_devices (fun _ p => p == 80) [sampleLocal, sampleRemote]).2 =
      ["10.0.0.7"] ∧
    (∃ r, (deep_scan_devices (fun _ p => p == 80) [sampleLocal, sampleRemote]).1.get? 1 =
      some r ∧ r.open_ports = some (scannedOpenPorts (fun _ p => p == 80) "10.0.0.7")) := by
  have h := c10_deep_scan_frame (fun _ p => p == 80) [sampleLocal, sampleRemote]
  refine ⟨(h.2.2 0 sampleLocal rfl).1 rfl, ?_, ?_⟩
  · rw [h.2.1]; rfl
  · obtain ⟨r, hr, _, _, _, _, _, _, _, hop⟩ := (h.2.2 1 sampleRemote rfl).2 rfl
    exact ⟨r, hr, hop⟩

theorem maxSnd_cons (p : String × Nat) (l : List (String × Nat)) :
    maxSnd (p :: l) = max p.2 (maxSnd l) := rfl

theorem pyMax_find : ∀ (l : List (String × Nat)) (b : String × Nat),
    (b :: l).find? (fun y => decide (maxSnd (b :: l) ≤ y.2)) = some (pyMax b l)
  | [], b => by
    have hb : maxSnd [b] = b.2 := by simp [maxSnd]
    simp [pyMax, hb]
  | x :: xs, b => by
    have hM : maxSnd (b :: x :: xs) = maxSnd ((if b.2 < x.2 then x else b) :: xs) := by
      rcases Nat.lt_or_ge b.2 x.2 with h | h
      · rw [if_pos h, maxSnd_cons]
        exact Nat.max_eq_right
          (Nat.le_trans (Nat.le_of_lt h) (by rw [maxSnd_cons]; exact Nat.le_max_left _ _))
      · rw [if_neg (Nat.not_lt.mpr h), maxSnd_cons, maxSnd_cons, maxSnd_cons,
          ← Nat.max_assoc, Nat.max_eq_left h]
    have ih := pyMax_find xs (if b.2 < x.2 then x else b)
    have hpy : pyMax b (x :: xs) = pyMax (if b.2 < x.2 then x else b) xs := rfl
    rw [hpy]
    simp only [hM]
    by_cases hbx : b.2 < x.2
    · rw [if_pos hbx] at ih ⊢
      have hxle : x.2 ≤ maxSnd (x :: xs) := by
        rw [maxSnd_cons]; exact Nat.le_max_left _ _
      have hpb : decide (maxSnd (x :: xs) ≤ b.2) = false :=
        decide_eq_false (by omega)
      simp only [List.find?_cons, hpb] at ih ⊢
      exact ih
    · rw [if_neg hbx] at ih ⊢
      have hxb : x.2 ≤ b.2 := Nat.not_lt.mp hbx
      by_cases hpb : maxSnd (b :: xs) ≤ b.2
      · have hd : decide (maxSnd (b :: xs) ≤ b.2) = true := decide_eq_true hpb
        simp only [List.find?_cons, hd] at ih ⊢
        exact ih
      · have hd : decide (maxSnd (b :: xs) ≤ b.2) = false := decide_eq_false hpb
        have hdx : decide (maxSnd (b :: xs) ≤ x.2) = false :=
          decide_eq_false (by omega)
        simp only [List.find?_cons, hd, hdx] at ih ⊢
        exact ih

theorem le_maxScoreOver (ports : List Nat) {sigs : List (String × List Nat)} :
    ∀ s ∈ sigs, sigScore ports s.2 ≤ maxScoreOver sigs ports := by
  induction sigs with
  | nil => intro s hs; simp at hs
  | cons t ts ih =>
    intro s hs
    have hM : maxScoreOver (t :: ts) ports =
        max (sigScore ports t.2) (maxScoreOver ts ports) := rfl
    rcases List.mem_cons.mp hs with rfl | hs'
    · rw [hM]; exact Nat.le_max_left _ _
    · rw [hM]; exact Nat.le_trans (ih s hs') (Nat.le_max_right _ _)

theorem positiveScores_eq (sigs : List (String × List Nat)) (ports : List Nat) :
    positiveScores sigs ports =
      (sigs.filter (fun s => 0 < sigScore ports s.2)).map
        (fun s => (s.1, sigScore ports s.2)) := by
  induction sigs with
  | nil => rfl
  | cons t ts ih =>
    simp only [positiveScores, List.filterMap_cons, List.filter_cons] at ih ⊢
    by_cases h : 0 < sigScore ports t.2
    · simp [h, ih]
    · simp [h, ih]

theorem maxSnd_positiveScores (sigs : List (String × List Nat)) (ports : List Nat) :
    maxSnd (positiveScores sigs ports) = maxScoreOver sigs ports := by
  rw [positiveScores_eq]
  induction sigs with
  | nil => rfl
  | cons t ts ih =>
    rw [List.filter_cons]
    by_cases h : 0 < sigScore ports t.2
    · rw [if_pos (decide_eq_true h), List.map_cons, maxSnd_cons, ih]
      rfl
    · rw [if_neg (by simpa using h), ih]
      have h0 : sigScore ports t.2 = 0 := by omega
      show maxScoreOver ts ports = maxScoreOver (t :: ts) ports
      rw [show maxScoreOver (t :: ts) ports =
          max (sigScore ports t.2) (maxScoreOver ts ports) from rfl, h0,
        Nat.zero_max]

theorem find?_filter_of_imp {α : Type} {p q : α → Bool} (l : List α)
    (h : ∀ a, p a = true → q a = true) :
    (l.filter q).find? p = l.find? p := by
  induction l with
  | nil => rfl
  | cons a l ih =>
    rw [List.filter_cons]
    by_cases hq : q a = true
    · rw [if_pos hq]
      by_cases hp : p a = true
      · rw [List.find?_cons_of_pos _ hp, List.find?_cons_of_pos _ hp]
      · rw [List.find?_cons_of_neg _ hp, List.find?_cons_of_neg _ hp]
        exact ih
    · rw [if_neg hq]
      have hp : ¬ p a = true := fun hpa => hq (h a hpa)
      rw [List.find?_cons_of_neg _ hp]
      exact ih

theorem find?_congr_of_mem {α : Type} {p q : α → Bool} (l : List α)
    (h : ∀ a ∈ l, p a = q a) : l.find? p = l.find? q := by
  induction l with
  | nil => rfl
  | cons a l ih =>
    have ha := h a (by simp)
    by_cases hp : p a = true
    · rw [List.find?_cons_of_pos _ hp, List.find?_cons_of_pos _ (ha ▸ hp)]
    · rw [List.find?_cons_of_neg _ hp,
        List.find?_cons_of_neg _ (fun hq => hp (by rw [ha]; exact hq))]
      exact ih (fun a ha' => h a (by simp [ha']))

theorem maxScoreOver_eq_zero {ports : List Nat} :
    ∀ {sigs : List (String × List Nat)},
      (∀ s ∈ sigs, sigScore ports s.2 = 0) → maxScoreOver sigs ports = 0
  | [], _ => rfl
  | t :: ts, h => by
    have h0 := h t (by simp)
    have hts := maxScoreOver_eq_zero (fun s hs => h s (List.mem_cons_of_mem t hs))
    show max (sigScore ports t.2) (maxScoreOver ts ports) = 0
    omega

theorem classifyOver_first_max (sigs : List (String × List Nat)) (ports : List Nat)
    (pm : Bool) (hpos : 0 < maxScoreOver sigs ports) :
    ∃ sig, sigs.find?
        (fun s => sigScore ports s.2 == maxScoreOver sigs ports) = some sig ∧
      classifyOver sigs ports pm = sig.1 := by
  cases hpt : positiveScores sigs ports with
  | nil =>
    exfalso
    have hall : ∀ s ∈ sigs, sigScore ports s.2 = 0 := by
      intro s hs
      by_contra hne
      have hgt : 0 < sigScore ports s.2 := Nat.pos_of_ne_zero hne
      have hmem : s ∈ sigs.filter (fun s => 0 < sigScore ports s.2) :=
        List.mem_filter.mpr ⟨hs, by simpa using hgt⟩
      rw [positiveScores_eq] at hpt
      have hfil : sigs.filter (fun s => 0 < sigScore ports s.2) = [] :=
        List.map_eq_nil.mp hpt
      rw [hfil] at hmem
      simp at hmem
    have hz := maxScoreOver_eq_zero hall
    omega
  | cons h t =>
    have hcl : classifyOver sigs ports pm = (pyMax h t).1 := by
      simp only [classifyOver, hpt]
    have hfind := pyMax_find t h
    rw [← hpt, maxSnd_positiveScores, positiveScores_eq, List.find?_map] at hfind
    have hcomp : ((fun y : String × Nat =>
          decide (maxScoreOver sigs ports ≤ y.2)) ∘
        (fun s : String × List Nat => (s.1, sigScore ports s.2)))
        = fun s : String × List Nat =>
            decide (maxScoreOver sigs ports ≤ sigScore ports s.2) := rfl
    rw [hcomp] at hfind
    rw [find?_filter_of_imp _ (fun s hs => by
      simp only [decide_eq_true_eq] at hs ⊢
      omega)] at hfind
    have hcong : sigs.find?
          (fun s => decide (maxScoreOver sigs ports ≤ sigScore ports s.2))
        = sigs.find? (fun s => sigScore ports s.2 == maxScoreOver sigs ports) := by
      apply find?_congr_of_mem
      intro s hs
      have hle := le_maxScoreOver ports s hs
      by_cases he : sigScore ports s.2 = maxScoreOver sigs ports
      · rw [he]; simp
      · have h1 : decide (maxScoreOver sigs ports ≤ sigScore ports s.2) = false :=
          decide_eq_false (by omega)
        have h2 : (sigScore ports s.2 == maxScoreOver sigs ports) = false := by
          simp [he]
        rw [h1, h2]
    rw [hcong] at hfind
    cases hf2 : sigs.find? (fun s => sigScore ports s.2 == maxScoreOver sigs ports) with
    | none => rw [hf2] at hfind; simp at hfind
    | some sig =>
      rw [hf2] at hfind
      simp only [Option.map_some'] at hfind
      injection hfind with hfind'
      exact ⟨sig, rfl, by rw [hcl, ← hfind']⟩

/-- C6: the fingerprint classification is a deterministic function of
the open-port set (it depends only on port membership), each
signature's score is the count of its ports present in the open-port
set, and when some signature scores positively the selected label is
that of the first signature in `device_signatures` declaration order
attaining the maximal score — Python's `max` over the insertion-ordered
`type_scores` dict replaces the best only on a strictly greater score,
so ties go to the first-declared signature, identically on every run. -/
theorem c6_classification_deterministic :
    (∀ (ports ports' : List Nat) (pm : Bool),
      (∀ p : Nat, p ∈ ports ↔ p ∈ ports') →
      classifyDevice ports pm = classifyDevice ports' pm) ∧
    (∀ (ports sigPorts : List Nat),
      sigScore ports sigPorts =
        (sigPorts.filter (fun p => decide (p ∈ ports))).length) ∧
    (∀ (ports : List Nat) (pm : Bool), 0 < maxSigScore ports →
      ∃ sig, device_signatures.find?
          (fun s => sigScore ports s.2 == maxSigScore ports) = some sig ∧
        classifyDevice ports pm = sig.1 ∧
        sigScore ports sig.2 = maxSigScore ports ∧
        ∀ s ∈ device_signatures, sigScore ports s.2 ≤ maxSigScore ports) := by
  refine ⟨?_, ?_, ?_⟩
  · intro ports ports' pm h
    have hsc : ∀ l : List Nat, sigScore ports l = sigScore ports' l := by
      intro l
      unfold sigScore
      exact List.countP_congr (fun a _ => by simpa using h a)
    have hemp : ports.isEmpty = ports'.isEmpty := by
      cases ports with
      | nil =>
        cases ports' with
        | nil => rfl
        | cons y ys => exact absurd ((h y).mpr (by simp)) (by simp)
      | cons x xs =>
        cases ports' with
        | nil => exact absurd ((h x).mp (by simp)) (by simp)
        | cons y ys => rfl
    show classifyOver device_signatures ports pm =
      classifyOver device_signatures ports' pm
    simp only [classifyOver, positiveScores, hsc, hemp]
  · intro ports sigPorts
    exact List.countP_eq_length_filter _ _
  · intro ports pm hpos
    obtain ⟨sig, hfind, hcl⟩ :=
      classifyOver_first_max device_signatures ports pm hpos
    refine ⟨sig, hfind, hcl, ?_, fun s hs => le_maxScoreOver ports s hs⟩
    have := List.find?_some hfind
    simpa using this

/-- Witness for C6 at the claim's example port set `{80, 443, 8080}`:
the first maximal-score signature is selected ("Router/Gateway" and
"Web Server" tie at 3, first-declared wins). -/
theorem c6_witness :
    (0 < maxSigScore [80, 443, 8080] ∧
      ∃ sig, device_signatures.find?
          (fun s => sigScore [80, 443, 8080] s.2 == maxSigScore [80, 443, 8080])
          = some sig ∧
        classifyDevice [80, 443, 8080] false = sig.1 ∧
        sigScore [80, 443, 8080] sig.2 = maxSigScore [80, 443, 8080] ∧
        ∀ s ∈ device_signatures,
          sigScore [80, 443, 8080] s.2 ≤ maxSigScore [80, 443, 8080]) ∧
    classifyDevice [80, 443, 8080] false = "Router/Gateway" ∧
    classifyDevice [80, 443, 8080] false = classifyDevice [8080, 80, 443, 80] false :=
  ⟨⟨by decide, c6_classification_deterministic.2.2 [80, 443, 8080] false (by decide)⟩,
    by decide,
    c6_classification_deterministic.1 [80, 443, 8080] [8080, 80, 443, 80] false
      (by intro p; simp; tauto)⟩

end NexRecon
